import Mathlib

/-!
# Verification of the LoRA weight-reparametrization core of `LoRA.py`

This file gives a shallow embedding of the LoRA adapter code of the
repository (class `LoRAParametrization`, its registration on the three
linear layers of `SimpleNN`, the global enable/disable toggle, the
parameter-count computations, and the evaluation loop `eval_model`),
and proves the specified properties about it.

Tensors are modelled as (rows, cols, row-major rational data); floating
point addition with an exact zero and the parameter-count / control-flow
properties proved here do not depend on rounding, so ℚ is a faithful
scalar model for these claims.  Python exceptions are modelled with
`Except`; random initialisation (`nn.init.normal_`) is modelled by an
arbitrary sample stream `sample : ℕ → ℚ` filling the tensor.
-/

/-- A 2-D torch tensor: shape `(rows, cols)` and row-major data.
A tensor is well-formed when `data.length = rows * cols`. -/
structure Tensor where
  rows : ℕ
  cols : ℕ
  data : List ℚ
deriving DecidableEq, Repr

/-- `t.nelement()` in torch: the number of elements of the tensor. -/
def Tensor.numel (t : Tensor) : ℕ := t.data.length

/-- Well-formedness: the data list realises the declared shape. -/
def Tensor.wf (t : Tensor) : Prop := t.data.length = t.rows * t.cols

instance (t : Tensor) : Decidable t.wf := by unfold Tensor.wf; infer_instance

/-- Errors raised during `LoRAParametrization.__init__`:
`negativeDimension` is torch's RuntimeError for `torch.zeros` with a
negative size; `zeroDivision` is Python's ZeroDivisionError from
`alpha / rank` at `rank = 0`. -/
inductive InitError where
  | negativeDimension
  | zeroDivision
deriving DecidableEq, Repr

/-- Errors raised during `LoRAParametrization.forward`:
`matmulShapeMismatch` from `torch.matmul` when inner dimensions differ,
`dimensionMismatch` from `.view` when the element counts differ. -/
inductive ApplyError where
  | matmulShapeMismatch
  | dimensionMismatch
deriving DecidableEq, Repr

/-- `torch.zeros((r, c))`: fails on a negative size, and accepts size 0
(producing an empty tensor). -/
def torch_zeros (r c : Int) : Except InitError Tensor :=
  if r < 0 ∨ c < 0 then .error .negativeDimension
  else .ok { rows := r.toNat, cols := c.toNat, data := List.replicate (r.toNat * c.toNat) 0 }

/-- `nn.init.normal_(t)`: refill the tensor's data from the sample
stream, keeping its shape and element count. -/
def nn_init_normal (t : Tensor) (sample : ℕ → ℚ) : Tensor :=
  { t with data := (List.range t.data.length).map sample }

/-- The total matrix product on data (used once inner dimensions were
checked): entry `(i, j)` is `∑ k, x[i,k] * y[k,j]`. -/
def matmulCore (x y : Tensor) : Tensor :=
  { rows := x.rows, cols := y.cols,
    data := (List.range (x.rows * y.cols)).map (fun idx =>
      ((List.range x.cols).map (fun k =>
        x.data.getD (idx / y.cols * x.cols + k) 0 *
          y.data.getD (k * y.cols + idx % y.cols) 0)).sum) }

/-- `torch.matmul(x, y)` on 2-D tensors: requires the inner dimensions
to agree. -/
def torch_matmul (x y : Tensor) : Except ApplyError Tensor :=
  if x.cols = y.rows then .ok (matmulCore x y) else .error .matmulShapeMismatch

/-- `t.view((r, c))`: reinterpret the (contiguous) data with a new
shape; fails iff the element counts differ. -/
def torch_view (t : Tensor) (r c : ℕ) : Except ApplyError Tensor :=
  if r * c = t.data.length then .ok { rows := r, cols := c, data := t.data }
  else .error .dimensionMismatch

/-- Elementwise tensor addition (both operands have the same shape at
every use site in the source, so no broadcasting is modelled). -/
def torch_add (a b : Tensor) : Tensor :=
  { rows := a.rows, cols := a.cols, data := List.zipWith (· + ·) a.data b.data }

/-- `t * c`: scalar multiplication. -/
def torch_smul (t : Tensor) (c : ℚ) : Tensor :=
  { t with data := t.data.map (· * c) }

/-- The state of one `LoRAParametrization` module: the two trainable
tensors `lora_A` (rank × features_out) and `lora_B`
(features_in × rank), the fixed `scale`, and the `enabled` flag. -/
structure LoRAParametrization where
  lora_A : Tensor
  lora_B : Tensor
  scale : ℚ
  enabled : Bool
deriving DecidableEq, Repr

namespace LoRAParametrization

/-- `LoRAParametrization.__init__(features_in, features_out, rank, alpha)`:
`lora_A = torch.zeros((rank, features_out))`,
`lora_B = torch.zeros((features_in, rank))`,
`nn.init.normal_(lora_A)` (data drawn from `sample`),
`scale = alpha / rank`, `enabled = True`.
The source performs no explicit dimension validation: the only failures
are torch's negative-size error and Python's division by zero. -/
def init (features_in features_out rank : Int) (alpha : ℚ) (sample : ℕ → ℚ) :
    Except InitError LoRAParametrization :=
  match torch_zeros rank features_out with
  | .error e => .error e
  | .ok a0 =>
    match torch_zeros features_in rank with
    | .error e => .error e
    | .ok b =>
      let a := nn_init_normal a0 sample
      if rank = 0 then .error .zeroDivision
      else .ok { lora_A := a, lora_B := b, scale := alpha / (rank : ℚ), enabled := true }

/-- `LoRAParametrization.forward(original_weights)`:
if enabled, `original_weights
  + torch.matmul(lora_B, lora_A).view(original_weights.shape) * scale`;
otherwise `original_weights` unchanged.  The function is pure: it never
mutates its argument or the module state. -/
def forward (self : LoRAParametrization) (original_weights : Tensor) :
    Except ApplyError Tensor :=
  if self.enabled then
    match torch_matmul self.lora_B self.lora_A with
    | .error e => .error e
    | .ok p =>
      match torch_view p original_weights.rows original_weights.cols with
      | .error e => .error e
      | .ok v => .ok (torch_add original_weights (torch_smul v self.scale))
  else .ok original_weights

/-- The attribute assignment `adapter.enabled = b` (the body of
`enable_disable_lora` for one adapter): a pure flag update. -/
def setEnabled (self : LoRAParametrization) (b : Bool) : LoRAParametrization :=
  { self with enabled := b }

end LoRAParametrization

/-- Whether an `Except` computation succeeded (no exception raised). -/
def exceptOk {ε α : Type _} : Except ε α → Bool
  | .ok _ => true
  | .error _ => false

instance {ε α : Type _} [DecidableEq ε] [DecidableEq α] : DecidableEq (Except ε α) := fun a b =>
  match a, b with
  | .ok x, .ok y => by
      cases h : decide (x = y) with
      | true => exact isTrue (by simp_all)
      | false => exact isFalse (by simp_all)
  | .ok _, .error _ => isFalse (by simp)
  | .error _, .ok _ => isFalse (by simp)
  | .error e, .error f => by
      cases h : decide (e = f) with
      | true => exact isTrue (by simp_all)
      | false => exact isFalse (by simp_all)

/-- One `nn.Linear` layer of `SimpleNN` before adaptation: its weight
has shape `(out_features, in_features)` and its bias is a vector of
`out_features` entries. -/
structure BaseLinear where
  weight : Tensor
  bias : List ℚ
deriving DecidableEq, Repr

/-- `SimpleNN`: the three linear layers `linear1`, `linear2`, `linear3`. -/
structure BaseNet where
  linear1 : BaseLinear
  linear2 : BaseLinear
  linear3 : BaseLinear
deriving DecidableEq, Repr

/-- The pre-adaptation loop
`total_parameters_original += layer.weight.nelement() + layer.bias.nelement()`
over the three layers. -/
def total_parameters_original (n : BaseNet) : ℕ :=
  (n.linear1.weight.numel + n.linear1.bias.length) +
    (n.linear2.weight.numel + n.linear2.bias.length) +
    (n.linear3.weight.numel + n.linear3.bias.length)

/-- `linear_layer_parameterization(layer, device, rank, lora_alpha)`:
`features_in, features_out = layer.weight.shape` (note: torch stores a
linear layer's weight as `(out_features, in_features)`, so
`features_in` is the layer's output size and `features_out` its input
size), then `LoRAParametrization(features_in, features_out, ...)`. -/
def linear_layer_parameterization (layer : BaseLinear) (rank : Int) (lora_alpha : ℚ)
    (sample : ℕ → ℚ) : Except InitError LoRAParametrization :=
  LoRAParametrization.init (layer.weight.rows : Int) (layer.weight.cols : Int)
    rank lora_alpha sample

/-- A linear layer after `parametrize.register_parametrization`: it
keeps its original weight tensor (`parametrizations.weight.original`)
and bias, plus the registered adapter
(`parametrizations["weight"][0]`). -/
structure ParametrizedLinear where
  weight : Tensor
  bias : List ℚ
  lora : LoRAParametrization
deriving DecidableEq, Repr

/-- The network after the three `register_parametrization` calls. -/
structure LoRANet where
  linear1 : ParametrizedLinear
  linear2 : ParametrizedLinear
  linear3 : ParametrizedLinear
deriving DecidableEq, Repr

/-- The three `parametrize.register_parametrization(net.linearX, "weight",
linear_layer_parameterization(net.linearX, device))` calls, with the
source's default `rank=1, lora_alpha=1`; each adapter draws its
`lora_A` entries from its own sample stream. -/
def register_lora (n : BaseNet) (s1 s2 s3 : ℕ → ℚ) : Except InitError LoRANet :=
  match linear_layer_parameterization n.linear1 1 1 s1 with
  | .error e => .error e
  | .ok p1 =>
    match linear_layer_parameterization n.linear2 1 1 s2 with
    | .error e => .error e
    | .ok p2 =>
      match linear_layer_parameterization n.linear3 1 1 s3 with
      | .error e => .error e
      | .ok p3 =>
        .ok { linear1 := ⟨n.linear1.weight, n.linear1.bias, p1⟩,
              linear2 := ⟨n.linear2.weight, n.linear2.bias, p2⟩,
              linear3 := ⟨n.linear3.weight, n.linear3.bias, p3⟩ }

/-- `enable_disable_lora(enabled)`: for each of the three layers,
`layer.parametrizations["weight"][0].enabled = enabled`. -/
def enable_disable_lora (n : LoRANet) (enabled : Bool) : LoRANet :=
  { linear1 := { n.linear1 with lora := n.linear1.lora.setEnabled enabled },
    linear2 := { n.linear2 with lora := n.linear2.lora.setEnabled enabled },
    linear3 := { n.linear3 with lora := n.linear3.lora.setEnabled enabled } }

/-- Reading `layer.weight` on a parametrized layer: torch routes the
read through the registered parametrization, i.e. it returns
`forward(original)`. -/
def ParametrizedLinear.weightRead (l : ParametrizedLinear) : Except ApplyError Tensor :=
  l.lora.forward l.weight

/-- The loop
`total_parameters_lora += p.lora_A.nelement() + p.lora_B.nelement()`
over the three layers. -/
def total_parameters_lora (n : LoRANet) : ℕ :=
  (n.linear1.lora.lora_A.numel + n.linear1.lora.lora_B.numel) +
    (n.linear2.lora.lora_A.numel + n.linear2.lora.lora_B.numel) +
    (n.linear3.lora.lora_A.numel + n.linear3.lora.lora_B.numel)

/-- The loop
`total_parameters_non_lora += layer.weight.nelement() + layer.bias.nelement()`
run after registration: `layer.weight` is now the parametrized read. -/
def total_parameters_non_lora (n : LoRANet) : Except ApplyError ℕ :=
  match n.linear1.weightRead with
  | .error e => .error e
  | .ok w1 =>
    match n.linear2.weightRead with
    | .error e => .error e
    | .ok w2 =>
      match n.linear3.weightRead with
      | .error e => .error e
      | .ok w3 =>
        .ok ((w1.numel + n.linear1.bias.length) + (w2.numel + n.linear2.bias.length) +
          (w3.numel + n.linear3.bias.length))

/-- The mutable counters of `eval_model`: `correct`, `total`, and the
ten-entry `wrong_counts` list. -/
structure EvalState where
  correct : ℕ
  total : ℕ
  wrong_counts : List ℕ
deriving DecidableEq, Repr

/-- `torch.argmax` on a vector: index of the first maximal entry. -/
def torch_argmax (l : List ℚ) : ℕ :=
  (l.foldl
    (fun acc x => if acc.2.2 < x then (acc.2.1, acc.2.1 + 1, x) else (acc.1, acc.2.1 + 1, acc.2.2))
    ((0 : ℕ), (0 : ℕ), l.headD 0)).1

/-- The body of the inner loop of `eval_model` for one sample: compare
`torch.argmax(output_row)` with the label, bump `correct` or
`wrong_counts[label]`, then `total += 1`. -/
def evalSample (st : EvalState) (s : List ℚ × ℕ) : EvalState :=
  let st' :=
    if torch_argmax s.1 = s.2 then { st with correct := st.correct + 1 }
    else { st with wrong_counts := st.wrong_counts.set s.2 (st.wrong_counts.getD s.2 0 + 1) }
  { st' with total := st'.total + 1 }

/-- `eval_model`: counters start at `correct = 0`, `total = 0`,
`wrong_counts = [0]*10`; the outer loop runs over test batches and the
inner loop over the output rows of each batch; each output row is the
network's logit vector for one test sample, paired here with its label.
Returns the final counters together with the accuracy value
`correct / total` (the quantity the source rounds to three digits for
display). -/
def eval_model (batches : List (List (List ℚ × ℕ))) : EvalState × ℚ :=
  let st := batches.foldl (fun acc batch => batch.foldl evalSample acc)
    ⟨0, 0, List.replicate 10 0⟩
  (st, (st.correct : ℚ) / (st.total : ℚ))

/-- The adapter state `linear_layer_parameterization` produces for a
layer at the source defaults `rank = 1`, `lora_alpha = 1` (proved below
in `linear_param_ok`). -/
def freshAdapter (l : BaseLinear) (s : ℕ → ℚ) : LoRAParametrization :=
  { lora_A := ⟨1, l.weight.cols, (List.range (1 * l.weight.cols)).map s⟩,
    lora_B := ⟨l.weight.rows, 1, List.replicate (l.weight.rows * 1) 0⟩,
    scale := 1 / ((1 : Int) : ℚ), enabled := true }

section HelperLemmas

lemma replicate_getD_zero (n i : ℕ) : (List.replicate n (0 : ℚ)).getD i 0 = 0 := by
  induction n generalizing i with
  | zero => cases i <;> rfl
  | succ m ih =>
    cases i with
    | zero => rfl
    | succ j => exact ih j

lemma zipWith_add_replicate_zero (l : List ℚ) (n : ℕ) (h : l.length = n) :
    List.zipWith (· + ·) l (List.replicate n 0) = l := by
  induction l generalizing n with
  | nil => simp
  | cons x xs ih =>
    cases n with
    | zero => simp at h
    | succ m =>
      simp only [List.replicate, List.zipWith, add_zero, List.cons.injEq, true_and]
      exact ih m (by simpa using h)

/-- Multiplying by an all-zero left factor yields the zero matrix. -/
lemma matmulCore_zero_left (r k d : ℕ) (y : Tensor) :
    matmulCore ⟨r, k, List.replicate d 0⟩ y = ⟨r, y.cols, List.replicate (r * y.cols) 0⟩ := by
  unfold matmulCore
  simp only [Tensor.mk.injEq, true_and]
  have h : ∀ idx ∈ List.range (r * y.cols),
      ((List.range k).map (fun j =>
        (List.replicate d (0 : ℚ)).getD (idx / y.cols * k + j) 0 *
          y.data.getD (j * y.cols + idx % y.cols) 0)).sum = (fun _ => (0 : ℚ)) idx := by
    intro idx _
    have : ∀ j ∈ List.range k,
        (List.replicate d (0 : ℚ)).getD (idx / y.cols * k + j) 0 *
          y.data.getD (j * y.cols + idx % y.cols) 0 = (fun _ => (0 : ℚ)) j := by
      intro j _
      simp [replicate_getD_zero]
    rw [List.map_congr_left this]
    simp
  rw [List.map_congr_left h]
  simp

/-- Characterisation of a successful `__init__` at valid arguments. -/
lemma LoRAParametrization.init_ok (fin fout rank : Int) (alpha : ℚ) (sample : ℕ → ℚ)
    (hr : 0 < rank) (hin : 0 ≤ fin) (hout : 0 ≤ fout) :
    LoRAParametrization.init fin fout rank alpha sample =
      .ok { lora_A := ⟨rank.toNat, fout.toNat, (List.range (rank.toNat * fout.toNat)).map sample⟩,
            lora_B := ⟨fin.toNat, rank.toNat, List.replicate (fin.toNat * rank.toNat) 0⟩,
            scale := alpha / (rank : ℚ), enabled := true } := by
  have h1 : ¬(rank < 0 ∨ fout < 0) := by omega
  have h2 : ¬(fin < 0 ∨ rank < 0) := by omega
  have h3 : ¬(rank = 0) := by omega
  simp [LoRAParametrization.init, torch_zeros, nn_init_normal, h1, h2, h3]

/-- Inversion for `__init__`: a successful construction implies the
arguments were valid (`rank ≥ 1`, non-negative feature dimensions) and
determines the resulting adapter state. -/
lemma LoRAParametrization.init_ok_elim
    (fin fout rank : Int) (alpha : ℚ) (sample : ℕ → ℚ) (st : LoRAParametrization)
    (h : LoRAParametrization.init fin fout rank alpha sample = .ok st) :
    0 < rank ∧ 0 ≤ fin ∧ 0 ≤ fout ∧
      st = { lora_A := ⟨rank.toNat, fout.toNat, (List.range (rank.toNat * fout.toNat)).map sample⟩,
             lora_B := ⟨fin.toNat, rank.toNat, List.replicate (fin.toNat * rank.toNat) 0⟩,
             scale := alpha / (rank : ℚ), enabled := true } := by
  unfold LoRAParametrization.init at h
  split at h
  · simp at h
  · rename_i a0 heqA
    split at h
    · simp at h
    · rename_i b heqB
      split at h
      · simp at h
      · rename_i hrank0
        unfold torch_zeros at heqA heqB
        split at heqA
        · simp at heqA
        · split at heqB
          · simp at heqB
          · rename_i hA hB
            injection heqA with heqA
            injection heqB with heqB
            injection h with h
            subst heqA heqB
            refine ⟨by omega, by omega, by omega, ?_⟩
            rw [← h]
            simp [nn_init_normal]

lemma linear_param_ok (l : BaseLinear) (s : ℕ → ℚ) :
    linear_layer_parameterization l 1 1 s = .ok (freshAdapter l s) := by
  unfold linear_layer_parameterization
  rw [LoRAParametrization.init_ok _ _ _ _ s (by omega) (Int.natCast_nonneg _)
    (Int.natCast_nonneg _)]
  unfold freshAdapter
  norm_num [Int.toNat_natCast]

lemma register_lora_ok (n : BaseNet) (s1 s2 s3 : ℕ → ℚ) :
    register_lora n s1 s2 s3 = .ok
      { linear1 := ⟨n.linear1.weight, n.linear1.bias, freshAdapter n.linear1 s1⟩,
        linear2 := ⟨n.linear2.weight, n.linear2.bias, freshAdapter n.linear2 s2⟩,
        linear3 := ⟨n.linear3.weight, n.linear3.bias, freshAdapter n.linear3 s3⟩ } := by
  unfold register_lora
  rw [linear_param_ok, linear_param_ok, linear_param_ok]

/-- An all-zero left factor, in any shape presentation. -/
lemma matmulCore_zero_left_of_data (x y : Tensor) (d : ℕ)
    (hx : x.data = List.replicate d 0) :
    matmulCore x y = ⟨x.rows, y.cols, List.replicate (x.rows * y.cols) 0⟩ := by
  obtain ⟨r, k, xd⟩ := x
  dsimp at hx
  subst hx
  exact matmulCore_zero_left r k d y

/-- An enabled adapter whose `lora_B` is all zeros (and whose factor
product has the element count of `W`) maps any well-formed `W` to
itself. -/
lemma forward_zero_B (st : LoRAParametrization) (W : Tensor) (d : ℕ)
    (hen : st.enabled = true) (hBdata : st.lora_B.data = List.replicate d 0)
    (hinner : st.lora_B.cols = st.lora_A.rows)
    (hnum : st.lora_B.rows * st.lora_A.cols = W.rows * W.cols) (hwf : W.wf) :
    st.forward W = .ok W := by
  obtain ⟨wr, wc, wd⟩ := W
  dsimp at hnum
  have hwf' : wd.length = wr * wc := hwf
  have hm : torch_matmul st.lora_B st.lora_A =
      .ok ⟨st.lora_B.rows, st.lora_A.cols, List.replicate (st.lora_B.rows * st.lora_A.cols) 0⟩ := by
    unfold torch_matmul
    rw [if_pos hinner, matmulCore_zero_left_of_data _ _ d hBdata]
  have hv : torch_view
      ⟨st.lora_B.rows, st.lora_A.cols, List.replicate (st.lora_B.rows * st.lora_A.cols) (0 : ℚ)⟩
      wr wc =
      .ok ⟨wr, wc, List.replicate (st.lora_B.rows * st.lora_A.cols) (0 : ℚ)⟩ := by
    unfold torch_view
    rw [if_pos (by simp [hnum])]
  unfold LoRAParametrization.forward
  rw [hen, if_pos rfl, hm]
  dsimp only
  rw [hv]
  simp only [torch_smul, torch_add, List.map_replicate, zero_mul]
  rw [zipWith_add_replicate_zero wd _ (hwf'.trans hnum.symm)]

/-- Reading the weight of a freshly parametrized layer returns the
original weight. -/
lemma weightRead_fresh (l : BaseLinear) (s : ℕ → ℚ) (hwf : l.weight.wf) :
    ParametrizedLinear.weightRead ⟨l.weight, l.bias, freshAdapter l s⟩ = .ok l.weight := by
  unfold ParametrizedLinear.weightRead
  exact forward_zero_B (freshAdapter l s) l.weight (l.weight.rows * 1) rfl rfl rfl
    (by simp [freshAdapter]) hwf

/-- `wrong_counts[y] += 1` adds exactly one to the sum of the counters
when `y` is in range. -/
lemma sum_set_getD_add_one (wc : List ℕ) (y : ℕ) (h : y < wc.length) :
    (wc.set y (wc.getD y 0 + 1)).sum = wc.sum + 1 := by
  induction wc generalizing y with
  | nil => simp at h
  | cons a l ih =>
    cases y with
    | zero => simp [List.getD]; omega
    | succ j =>
      have hj : j < l.length := by simpa using h
      rw [List.getD_cons_succ, List.set_cons_succ]
      simp only [List.sum_cons]
      rw [ih j hj]
      omega

/-- One pass of the inner loop body of `eval_model`: `correct + sum`
grows by one, `total` grows by one, and the counter list keeps its
length. -/
lemma evalSample_invariant (st : EvalState) (s : List ℚ × ℕ) (hy : s.2 < 10)
    (hlen : st.wrong_counts.length = 10) :
    (evalSample st s).correct + (evalSample st s).wrong_counts.sum =
      st.correct + st.wrong_counts.sum + 1 ∧
    (evalSample st s).total = st.total + 1 ∧
    (evalSample st s).wrong_counts.length = 10 := by
  unfold evalSample
  by_cases h : torch_argmax s.1 = s.2
  · rw [if_pos h]
    exact ⟨by dsimp; omega, rfl, hlen⟩
  · rw [if_neg h]
    dsimp
    refine ⟨?_, rfl, by simp [hlen]⟩
    rw [sum_set_getD_add_one st.wrong_counts s.2 (by omega)]
    omega

/-- The inner loop of `eval_model` over one batch. -/
lemma evalBatch_invariant (batch : List (List ℚ × ℕ)) (hb : ∀ s ∈ batch, s.2 < 10) :
    ∀ st : EvalState, st.wrong_counts.length = 10 →
      ((batch.foldl evalSample st).correct + (batch.foldl evalSample st).wrong_counts.sum =
        st.correct + st.wrong_counts.sum + batch.length) ∧
      (batch.foldl evalSample st).total = st.total + batch.length ∧
      (batch.foldl evalSample st).wrong_counts.length = 10 := by
  induction batch with
  | nil => intro st hlen; simpa using hlen
  | cons s rest ih =>
    intro st hlen
    have hs := evalSample_invariant st s (hb s (by simp)) hlen
    have hr := ih (fun x hx => hb x (by simp [hx])) (evalSample st s) hs.2.2
    simp only [List.foldl_cons, List.length_cons]
    refine ⟨by omega, by omega, hr.2.2⟩

/-- The outer loop of `eval_model` over all batches. -/
lemma evalBatches_invariant (batches : List (List (List ℚ × ℕ)))
    (hb : ∀ b ∈ batches, ∀ s ∈ b, s.2 < 10) :
    ∀ st : EvalState, st.wrong_counts.length = 10 →
      ((batches.foldl (fun acc batch => batch.foldl evalSample acc) st).correct +
        (batches.foldl (fun acc batch => batch.foldl evalSample acc) st).wrong_counts.sum =
        st.correct + st.wrong_counts.sum + (batches.map List.length).sum) ∧
      (batches.foldl (fun acc batch => batch.foldl evalSample acc) st).total =
        st.total + (batches.map List.length).sum ∧
      (batches.foldl (fun acc batch => batch.foldl evalSample acc) st).wrong_counts.length = 10 := by
  induction batches with
  | nil => intro st hlen; simpa using hlen
  | cons b rest ih =>
    intro st hlen
    have hbatch := evalBatch_invariant b (hb b (by simp)) st hlen
    have hr := ih (fun x hx s hs => hb x (by simp [hx]) s hs) (b.foldl evalSample st) hbatch.2.2
    simp only [List.foldl_cons, List.map_cons, List.sum_cons]
    refine ⟨by omega, by omega, hr.2.2⟩

end HelperLemmas

/-- **C1.** For every valid construction (`features_in > 0`,
`features_out > 0`, `rank ≥ 1`, any `alpha` and any normal sample for
`lora_A`), immediately after construction the adapter is an identity:
`forward(W) = W` for every well-formed `W` of the matching shape
`(features_in, features_out)`, because `lora_B` is all zeros and hence
`lora_B ⬝ lora_A` is the zero matrix. -/
theorem lora_identity_at_init
    (fin fout rank : Int) (alpha : ℚ) (sample : ℕ → ℚ) (st : LoRAParametrization)
    (hin : 0 < fin) (hout : 0 < fout) (hrank : 1 ≤ rank)
    (hinit : LoRAParametrization.init fin fout rank alpha sample = .ok st)
    (W : Tensor) (hr : W.rows = fin.toNat) (hc : W.cols = fout.toNat) (hwf : W.wf) :
    st.forward W = .ok W := by
  rw [LoRAParametrization.init_ok fin fout rank alpha sample (by omega) (by omega) (by omega)]
    at hinit
  obtain ⟨wr, wc, wd⟩ := W
  simp only [Tensor.wf] at hwf
  dsimp at hr hc hwf
  subst hr hc
  cases hinit
  simp only [LoRAParametrization.forward, LoRAParametrization.lora_A,
    LoRAParametrization.lora_B, LoRAParametrization.enabled, LoRAParametrization.scale,
    if_true, torch_matmul, matmulCore_zero_left]
  have hv : torch_view
      { rows := fin.toNat, cols := fout.toNat, data := List.replicate (fin.toNat * fout.toNat) (0 : ℚ) }
      fin.toNat fout.toNat =
      .ok { rows := fin.toNat, cols := fout.toNat,
            data := List.replicate (fin.toNat * fout.toNat) (0 : ℚ) } := by
    simp [torch_view]
  rw [hv]
  simp only [torch_smul, torch_add, List.map_replicate, zero_mul]
  rw [zipWith_add_replicate_zero wd (fin.toNat * fout.toNat) hwf]

/-- Witness for C1 at the spec's example `features_in = 4`,
`features_out = 4`, `rank = 1`, `alpha = 1`: at init,
`Apply(I₄) = I₄` exactly. -/
theorem lora_identity_at_init_witness :
    LoRAParametrization.forward
      { lora_A := ⟨1, 4, [1, 1, 1, 1]⟩, lora_B := ⟨4, 1, [0, 0, 0, 0]⟩,
        scale := 1 / ((1 : Int) : ℚ), enabled := true }
      ⟨4, 4, [1, 0, 0, 0, 0, 1, 0, 0, 0, 0, 1, 0, 0, 0, 0, 1]⟩ =
      .ok ⟨4, 4, [1, 0, 0, 0, 0, 1, 0, 0, 0, 0, 1, 0, 0, 0, 0, 1]⟩ :=
  lora_identity_at_init 4 4 1 1 (fun _ => 1) _ (by decide) (by decide) (by decide) rfl
    ⟨4, 4, [1, 0, 0, 0, 0, 1, 0, 0, 0, 0, 1, 0, 0, 0, 0, 1]⟩ rfl rfl (by decide)

/-- **C2.** For every adapter with `enabled = true` (and coherent factor
shapes, as produced by every construction) and every well-formed weight
`W` whose element count matches that of `lora_B ⬝ lora_A`, `forward`
returns exactly `W + scale · reshape(lora_B ⬝ lora_A, W.shape)`.  The
embedding is purely functional, so the call is deterministic and cannot
mutate `W` or the adapter. -/
theorem lora_forward_enabled (st : LoRAParametrization) (W : Tensor)
    (hen : st.enabled = true) (hinner : st.lora_B.cols = st.lora_A.rows)
    (hnum : (matmulCore st.lora_B st.lora_A).numel = W.numel) (hwf : W.wf) :
    st.forward W =
      .ok (torch_add W (torch_smul
        { rows := W.rows, cols := W.cols, data := (matmulCore st.lora_B st.lora_A).data }
        st.scale)) := by
  have hwf' : W.data.length = W.rows * W.cols := hwf
  have hnum' : (matmulCore st.lora_B st.lora_A).data.length = W.data.length := hnum
  have hm : torch_matmul st.lora_B st.lora_A = .ok (matmulCore st.lora_B st.lora_A) := by
    unfold torch_matmul
    rw [if_pos hinner]
  have hv : torch_view (matmulCore st.lora_B st.lora_A) W.rows W.cols =
      .ok { rows := W.rows, cols := W.cols, data := (matmulCore st.lora_B st.lora_A).data } := by
    unfold torch_view
    rw [if_pos (hwf'.symm.trans hnum'.symm)]
  unfold LoRAParametrization.forward
  rw [hen, if_pos rfl, hm]
  dsimp only
  rw [hv]

/-- Witness for C2 at the spec's example: `lora_A` all-ones `1 × 4`,
`lora_B` all-ones `4 × 1`, `scale = 1`: applying to the zero `4 × 4`
matrix yields the all-ones `4 × 4` matrix. -/
theorem lora_forward_enabled_witness :
    LoRAParametrization.forward
      { lora_A := ⟨1, 4, [1, 1, 1, 1]⟩, lora_B := ⟨4, 1, [1, 1, 1, 1]⟩,
        scale := 1, enabled := true }
      ⟨4, 4, [0, 0, 0, 0, 0, 0, 0, 0, 0, 0, 0, 0, 0, 0, 0, 0]⟩ =
      .ok ⟨4, 4, [1, 1, 1, 1, 1, 1, 1, 1, 1, 1, 1, 1, 1, 1, 1, 1]⟩ := by
  have h := lora_forward_enabled
    { lora_A := ⟨1, 4, [1, 1, 1, 1]⟩, lora_B := ⟨4, 1, [1, 1, 1, 1]⟩,
      scale := 1, enabled := true }
    ⟨4, 4, [0, 0, 0, 0, 0, 0, 0, 0, 0, 0, 0, 0, 0, 0, 0, 0]⟩ rfl rfl (by decide) (by decide)
  rw [h]
  norm_num [torch_add, torch_smul, matmulCore, List.range_succ, List.getD]

/-- **C3.** For every adapter with `enabled = false` and every weight
`W`, `forward(W)` returns `W` itself, unchanged and uncopied, whatever
the current values of `lora_A` and `lora_B` (and even for mismatched
shapes: the disabled branch performs no computation at all). -/
theorem lora_forward_disabled (st : LoRAParametrization) (W : Tensor)
    (hen : st.enabled = false) :
    st.forward W = .ok W := by
  unfold LoRAParametrization.forward
  rw [hen]
  simp

/-- Witness for C3: a disabled adapter with nonzero factors returns a
weight unchanged. -/
theorem lora_forward_disabled_witness :
    LoRAParametrization.forward
      { lora_A := ⟨1, 2, [5, 6]⟩, lora_B := ⟨2, 1, [7, 8]⟩, scale := 9, enabled := false }
      ⟨2, 2, [1, 2, 3, 4]⟩ = .ok ⟨2, 2, [1, 2, 3, 4]⟩ :=
  lora_forward_disabled
    { lora_A := ⟨1, 2, [5, 6]⟩, lora_B := ⟨2, 1, [7, 8]⟩, scale := 9, enabled := false }
    ⟨2, 2, [1, 2, 3, 4]⟩ rfl

/-- **C4, counterexample.** The claim says construction fails whenever a
feature dimension is non-positive; but `__init__` performs no dimension
validation, and `torch.zeros` accepts size `0`, so constructing with
`features_in = 0` (non-positive), `features_out = 4`, `rank = 1`
succeeds and returns a complete adapter (with an empty `lora_B`). -/
theorem lora_init_zero_feature_succeeds :
    exceptOk (LoRAParametrization.init 0 4 1 1 (fun _ => 0)) = true := by rfl

/-- **C4, amended.** `__init__` contains no explicit validation and no
`InvalidDimension` error.  Construction fails iff `rank ≤ 0` or a
feature dimension is negative: a negative `rank` or a negative feature
dimension makes `torch.zeros` raise (RuntimeError), and `rank = 0` with
non-negative dimensions makes `alpha / rank` raise ZeroDivisionError.
Construction succeeds for every `rank ≥ 1` and non-negative feature
dimensions — including zero feature dimensions, contrary to the claim.
In all failing cases the exception propagates out of `__init__`, so no
adapter object is returned. -/
theorem lora_init_ok_iff (fin fout rank : Int) (alpha : ℚ) (sample : ℕ → ℚ) :
    exceptOk (LoRAParametrization.init fin fout rank alpha sample) = true ↔
      1 ≤ rank ∧ 0 ≤ fin ∧ 0 ≤ fout := by
  constructor
  · intro h
    cases hinit : LoRAParametrization.init fin fout rank alpha sample with
    | error e => rw [hinit] at h; simp [exceptOk] at h
    | ok st =>
      obtain ⟨h1, h2, h3, -⟩ :=
        LoRAParametrization.init_ok_elim fin fout rank alpha sample st hinit
      exact ⟨by omega, h2, h3⟩
  · rintro ⟨h1, h2, h3⟩
    rw [LoRAParametrization.init_ok fin fout rank alpha sample (by omega) h2 h3]
    rfl

/-- **C5.** For every enabled adapter (with coherent factor shapes, as
every constructible adapter has) and every well-formed weight `W`,
`forward(W)` raises iff the element count of `lora_B ⬝ lora_A` differs
from that of `W` (the `.view` call), and the raised error is
`dimensionMismatch`.  The embedding is purely functional, so a failing
call mutates neither `W` nor the adapter state. -/
theorem lora_forward_error_iff (st : LoRAParametrization) (W : Tensor)
    (hen : st.enabled = true) (hinner : st.lora_B.cols = st.lora_A.rows) (hwf : W.wf) :
    st.forward W = .error ApplyError.dimensionMismatch ↔
      (matmulCore st.lora_B st.lora_A).numel ≠ W.numel := by
  have hwf' : W.data.length = W.rows * W.cols := hwf
  have hm : torch_matmul st.lora_B st.lora_A = .ok (matmulCore st.lora_B st.lora_A) := by
    unfold torch_matmul
    rw [if_pos hinner]
  unfold LoRAParametrization.forward
  rw [hen, if_pos rfl, hm]
  dsimp only
  unfold torch_view
  by_cases hc : W.rows * W.cols = (matmulCore st.lora_B st.lora_A).data.length
  · rw [if_pos hc]
    simp only [Tensor.numel]
    constructor
    · intro h; exact absurd h (by simp)
    · intro h; exact absurd (by omega : (matmulCore st.lora_B st.lora_A).data.length
        = W.data.length) h
  · rw [if_neg hc]
    simp only [Tensor.numel]
    constructor
    · intro _; omega
    · intro _; trivial

/-- Witness for C5: an enabled adapter whose product `B ⬝ A` has 6
elements applied to a `2 × 2` weight (4 elements) raises
`dimensionMismatch`. -/
theorem lora_forward_error_iff_witness :
    LoRAParametrization.forward
      { lora_A := ⟨1, 3, [1, 1, 1]⟩, lora_B := ⟨2, 1, [1, 1]⟩, scale := 1, enabled := true }
      ⟨2, 2, [0, 0, 0, 0]⟩ = .error ApplyError.dimensionMismatch :=
  (lora_forward_error_iff
    { lora_A := ⟨1, 3, [1, 1, 1]⟩, lora_B := ⟨2, 1, [1, 1]⟩, scale := 1, enabled := true }
    ⟨2, 2, [0, 0, 0, 0]⟩ rfl rfl (by decide)).mpr (by decide)

/-- **C7.** `scale` equals `alpha / rank` and is set once at
construction; the enabled-flag assignment (`SetEnabled`) changes only
the `enabled` field, leaving `lora_A`, `lora_B` and `scale` untouched
and recomputing nothing.  `forward` is a pure function of the state and
returns no modified state, so no `Apply` call can change `scale`
either. -/
theorem lora_scale_fixed_setEnabled_frame :
    (∀ (fin fout rank : Int) (alpha : ℚ) (sample : ℕ → ℚ) (st : LoRAParametrization),
        LoRAParametrization.init fin fout rank alpha sample = .ok st →
          st.scale = alpha / (rank : ℚ)) ∧
    (∀ (st : LoRAParametrization) (b : Bool),
        (st.setEnabled b).enabled = b ∧ (st.setEnabled b).scale = st.scale ∧
        (st.setEnabled b).lora_A = st.lora_A ∧ (st.setEnabled b).lora_B = st.lora_B) := by
  constructor
  · intro fin fout rank alpha sample st h
    obtain ⟨-, -, -, hst⟩ := LoRAParametrization.init_ok_elim fin fout rank alpha sample st h
    rw [hst]
  · intro st b
    exact ⟨rfl, rfl, rfl, rfl⟩

/-- Witness for C7: a concrete construction with `alpha = 3`, `rank = 1`
has `scale = 3 / 1`, and disabling a concrete adapter keeps its scale. -/
theorem lora_scale_fixed_setEnabled_frame_witness :
    ({ lora_A := ⟨1, 2, [0, 0]⟩, lora_B := ⟨2, 1, [0, 0]⟩,
       scale := 3 / ((1 : Int) : ℚ), enabled := true } : LoRAParametrization).scale =
        3 / ((1 : Int) : ℚ) ∧
    (({ lora_A := ⟨1, 2, [5, 6]⟩, lora_B := ⟨2, 1, [7, 8]⟩, scale := 9, enabled := true } :
        LoRAParametrization).setEnabled false).scale = 9 :=
  ⟨lora_scale_fixed_setEnabled_frame.1 2 2 1 3 (fun _ => 0) _ rfl,
   (lora_scale_fixed_setEnabled_frame.2
     { lora_A := ⟨1, 2, [5, 6]⟩, lora_B := ⟨2, 1, [7, 8]⟩, scale := 9, enabled := true }
     false).2.1⟩

/-- **C8.** `enable_disable_lora(b)` sets the `enabled` flag of all
three registered adapters uniformly to `b`, removes none of them, and
changes nothing else: every layer keeps its weight, its bias, and its
adapter's `lora_A`, `lora_B` and `scale`. -/
theorem enable_disable_lora_uniform (n : LoRANet) (b : Bool) :
    ((enable_disable_lora n b).linear1.lora.enabled = b ∧
     (enable_disable_lora n b).linear2.lora.enabled = b ∧
     (enable_disable_lora n b).linear3.lora.enabled = b) ∧
    ((enable_disable_lora n b).linear1.weight = n.linear1.weight ∧
     (enable_disable_lora n b).linear1.bias = n.linear1.bias ∧
     (enable_disable_lora n b).linear1.lora.lora_A = n.linear1.lora.lora_A ∧
     (enable_disable_lora n b).linear1.lora.lora_B = n.linear1.lora.lora_B ∧
     (enable_disable_lora n b).linear1.lora.scale = n.linear1.lora.scale) ∧
    ((enable_disable_lora n b).linear2.weight = n.linear2.weight ∧
     (enable_disable_lora n b).linear2.bias = n.linear2.bias ∧
     (enable_disable_lora n b).linear2.lora.lora_A = n.linear2.lora.lora_A ∧
     (enable_disable_lora n b).linear2.lora.lora_B = n.linear2.lora.lora_B ∧
     (enable_disable_lora n b).linear2.lora.scale = n.linear2.lora.scale) ∧
    ((enable_disable_lora n b).linear3.weight = n.linear3.weight ∧
     (enable_disable_lora n b).linear3.bias = n.linear3.bias ∧
     (enable_disable_lora n b).linear3.lora.lora_A = n.linear3.lora.lora_A ∧
     (enable_disable_lora n b).linear3.lora.lora_B = n.linear3.lora.lora_B ∧
     (enable_disable_lora n b).linear3.lora.scale = n.linear3.lora.scale) :=
  ⟨⟨rfl, rfl, rfl⟩, ⟨rfl, rfl, rfl, rfl, rfl⟩, ⟨rfl, rfl, rfl, rfl, rfl⟩,
   ⟨rfl, rfl, rfl, rfl, rfl⟩⟩

/-- **C6.** The trainable parameters of an adapter are exactly the two
tensors `lora_A` and `lora_B` (the only `nn.Parameter`s the module
creates), with element counts `rank · features_out` and
`features_in · rank` — fields that `enabled` never enters.  Across the
three layers `(784→1000)`, `(1000→2000)`, `(2000→10)` at `rank = 1`,
`total_parameters_lora` equals the sum over layers of
`rank·out + in·rank`; no bias term enters the computation. -/
theorem lora_trainable_param_counts :
    (∀ (fin fout rank : Int) (alpha : ℚ) (sample : ℕ → ℚ) (st : LoRAParametrization),
        LoRAParametrization.init fin fout rank alpha sample = .ok st →
          st.lora_A.numel = rank.toNat * fout.toNat ∧
          st.lora_B.numel = fin.toNat * rank.toNat) ∧
    (∀ (n : BaseNet) (s1 s2 s3 : ℕ → ℚ) (pn : LoRANet),
        register_lora n s1 s2 s3 = .ok pn →
        n.linear1.weight.rows = 1000 → n.linear1.weight.cols = 784 →
        n.linear2.weight.rows = 2000 → n.linear2.weight.cols = 1000 →
        n.linear3.weight.rows = 10 → n.linear3.weight.cols = 2000 →
          total_parameters_lora pn =
            (1 * 1000 + 784 * 1) + ((1 * 2000 + 1000 * 1) + (1 * 10 + 2000 * 1))) := by
  constructor
  · intro fin fout rank alpha sample st h
    obtain ⟨-, -, -, hst⟩ := LoRAParametrization.init_ok_elim fin fout rank alpha sample st h
    subst hst
    constructor <;> simp [Tensor.numel]
  · intro n s1 s2 s3 pn hreg e1 e2 e3 e4 e5 e6
    rw [register_lora_ok] at hreg
    injection hreg with hreg
    subst hreg
    simp only [total_parameters_lora, freshAdapter, Tensor.numel, List.length_map,
      List.length_range, List.length_replicate, e1, e2, e3, e4, e5, e6]

/-- Witness for C6: the registered adapters on the MNIST-sized network
carry `784 + 1000`, `1000 + 2000` and `2000 + 10` trainable entries,
totalling `6794`. -/
theorem lora_trainable_param_counts_witness :
    total_parameters_lora
      { linear1 := ⟨⟨1000, 784, []⟩, [], freshAdapter ⟨⟨1000, 784, []⟩, []⟩ (fun _ => 0)⟩,
        linear2 := ⟨⟨2000, 1000, []⟩, [], freshAdapter ⟨⟨2000, 1000, []⟩, []⟩ (fun _ => 0)⟩,
        linear3 := ⟨⟨10, 2000, []⟩, [], freshAdapter ⟨⟨10, 2000, []⟩, []⟩ (fun _ => 0)⟩ } =
      (1 * 1000 + 784 * 1) + ((1 * 2000 + 1000 * 1) + (1 * 10 + 2000 * 1)) :=
  lora_trainable_param_counts.2
    ⟨⟨⟨1000, 784, []⟩, []⟩, ⟨⟨2000, 1000, []⟩, []⟩, ⟨⟨10, 2000, []⟩, []⟩⟩
    (fun _ => 0) (fun _ => 0) (fun _ => 0) _
    (register_lora_ok ⟨⟨⟨1000, 784, []⟩, []⟩, ⟨⟨2000, 1000, []⟩, []⟩, ⟨⟨10, 2000, []⟩, []⟩⟩
      (fun _ => 0) (fun _ => 0) (fun _ => 0))
    rfl rfl rfl rfl rfl rfl

/-- **C9.** Registering the three adapters never resizes the host
layers' weights or biases: reading each parametrized `layer.weight`
returns a tensor with the original element count (for the fresh
adapters it is the original weight itself), so the post-registration
total `total_parameters_non_lora` equals the pre-adaptation
`total_parameters_original`, and the source's
`assert total_parameters_non_lora == total_parameters_original`
holds. -/
theorem non_lora_total_preserved (n : BaseNet) (s1 s2 s3 : ℕ → ℚ) (pn : LoRANet)
    (hreg : register_lora n s1 s2 s3 = .ok pn)
    (h1 : n.linear1.weight.wf) (h2 : n.linear2.weight.wf) (h3 : n.linear3.weight.wf) :
    total_parameters_non_lora pn = .ok (total_parameters_original n) := by
  rw [register_lora_ok] at hreg
  injection hreg with hreg
  subst hreg
  unfold total_parameters_non_lora
  rw [weightRead_fresh n.linear1 s1 h1, weightRead_fresh n.linear2 s2 h2,
    weightRead_fresh n.linear3 s3 h3]
  rfl

/-- Witness for C9 on a small concrete network. -/
theorem non_lora_total_preserved_witness :
    total_parameters_non_lora
      { linear1 := ⟨⟨1, 2, [1, 2]⟩, [5], freshAdapter ⟨⟨1, 2, [1, 2]⟩, [5]⟩ (fun _ => 0)⟩,
        linear2 := ⟨⟨2, 1, [3, 4]⟩, [6, 7], freshAdapter ⟨⟨2, 1, [3, 4]⟩, [6, 7]⟩ (fun _ => 0)⟩,
        linear3 := ⟨⟨1, 1, [8]⟩, [9], freshAdapter ⟨⟨1, 1, [8]⟩, [9]⟩ (fun _ => 0)⟩ } =
      .ok (total_parameters_original
        ⟨⟨⟨1, 2, [1, 2]⟩, [5]⟩, ⟨⟨2, 1, [3, 4]⟩, [6, 7]⟩, ⟨⟨1, 1, [8]⟩, [9]⟩⟩) :=
  non_lora_total_preserved
    ⟨⟨⟨1, 2, [1, 2]⟩, [5]⟩, ⟨⟨2, 1, [3, 4]⟩, [6, 7]⟩, ⟨⟨1, 1, [8]⟩, [9]⟩⟩
    (fun _ => 0) (fun _ => 0) (fun _ => 0) _
    (register_lora_ok ⟨⟨⟨1, 2, [1, 2]⟩, [5]⟩, ⟨⟨2, 1, [3, 4]⟩, [6, 7]⟩, ⟨⟨1, 1, [8]⟩, [9]⟩⟩
      (fun _ => 0) (fun _ => 0) (fun _ => 0))
    rfl rfl rfl

/-- **C10.** After `eval_model` processes every batch (labels are MNIST
digits, i.e. `< 10`), the counters satisfy
`correct + Σ wrong_counts = total`, `total` equals the number of test
samples processed (the sum of the batch sizes), and the accuracy value
it reports is `correct / total` (the source rounds this quotient to
three digits when printing). -/
theorem eval_model_invariant (batches : List (List (List ℚ × ℕ)))
    (hb : ∀ b ∈ batches, ∀ s ∈ b, s.2 < 10) :
    (eval_model batches).1.correct + (eval_model batches).1.wrong_counts.sum =
      (eval_model batches).1.total ∧
    (eval_model batches).1.total = (batches.map List.length).sum ∧
    (eval_model batches).2 =
      ((eval_model batches).1.correct : ℚ) / ((eval_model batches).1.total : ℚ) := by
  have h := evalBatches_invariant batches hb ⟨0, 0, List.replicate 10 0⟩ (by simp)
  obtain ⟨h1, h2, -⟩ := h
  simp only [EvalState.correct, EvalState.total, EvalState.wrong_counts, List.sum_replicate,
    smul_eq_mul, mul_zero, Nat.add_zero, Nat.zero_add] at h1 h2
  unfold eval_model
  exact ⟨by dsimp only; omega, by dsimp only; omega, rfl⟩

/-- Witness for C10: one batch of three samples (predictions right,
wrong, wrong). -/
theorem eval_model_invariant_witness :
    (eval_model [[([0, 1], 1), ([3, 2], 0), ([0, 2], 7)]]).1.correct +
      (eval_model [[([0, 1], 1), ([3, 2], 0), ([0, 2], 7)]]).1.wrong_counts.sum =
      (eval_model [[([0, 1], 1), ([3, 2], 0), ([0, 2], 7)]]).1.total ∧
    (eval_model [[([0, 1], 1), ([3, 2], 0), ([0, 2], 7)]]).1.total =
      ([[([0, 1], 1), ([3, 2], 0), ([0, 2], 7)]].map List.length).sum ∧
    (eval_model [[([0, 1], 1), ([3, 2], 0), ([0, 2], 7)]]).2 =
      ((eval_model [[([0, 1], 1), ([3, 2], 0), ([0, 2], 7)]]).1.correct : ℚ) /
        ((eval_model [[([0, 1], 1), ([3, 2], 0), ([0, 2], 7)]]).1.total : ℚ) :=
  eval_model_invariant [[([0, 1], 1), ([3, 2], 0), ([0, 2], 7)]] (by
    intro b hb s hs
    simp only [List.mem_singleton] at hb
    subst hb
    simp only [List.mem_cons, List.not_mem_nil, or_false] at hs
    rcases hs with rfl | rfl | rfl <;> decide)

